import Mathlib

/-!
Verification of the Charmed alarm registry and trigger-matching engine.

The definitions below are a shallow embedding of the Rust sources in
`charmed-tauri/src-tauri/src/` (`lib.rs`, `alarm.rs`, `storage.rs`):
machine integers `u8` and `u16` become `Fin 256` and `Fin 65536`, `i64`
becomes `Int`, fallible operations return `Option` or `Except String`,
the current local instant is passed explicitly, JSON texts produced and
consumed by serde_json are modelled by a value tree `Json` (with a
separate constructor for unparseable file contents), and the data
directory on disk is modelled by a small `FileSystem` record.  File
reads are modelled as always succeeding; directory creation and file
writes may fail, governed by a `PersistEnv` of outcome flags.
-/

set_option maxHeartbeats 1000000

/-- The serde_json value tree for a well-formed JSON document. -/
inductive Json where
  | null : Json
  | bool (b : Bool) : Json
  | num (n : Int) : Json
  | str (s : String) : Json
  | arr (elems : List Json) : Json
  | obj (fields : List (String × Json)) : Json

/-- Contents of a file on disk: either a well-formed JSON document or
bytes that do not parse as JSON at all. -/
inductive FileContent where
  | json (j : Json) : FileContent
  | garbage (s : String) : FileContent

/-- The seven weekday values of `chrono::Weekday`. -/
inductive Weekday where
  | mon | tue | wed | thu | fri | sat | sun
deriving DecidableEq, Repr

/-- Embeds `weekday_to_string` from `alarm.rs` (the same mapping is inlined in
`check_alarms` in `lib.rs`). -/
def weekday_to_string : Weekday → String
  | .mon => "Monday"
  | .tue => "Tuesday"
  | .wed => "Wednesday"
  | .thu => "Thursday"
  | .fri => "Friday"
  | .sat => "Saturday"
  | .sun => "Sunday"

/-- Embeds `string_to_weekday` from `alarm.rs`. -/
def string_to_weekday (s : String) : Option Weekday :=
  if s = "Monday" then some .mon
  else if s = "Tuesday" then some .tue
  else if s = "Wednesday" then some .wed
  else if s = "Thursday" then some .thu
  else if s = "Friday" then some .fri
  else if s = "Saturday" then some .sat
  else if s = "Sunday" then some .sun
  else none

/-- Embeds `AlarmEntry` from `lib.rs`: `volume: u8` is `Fin 256`,
`fade_in_duration: u16` is `Fin 65536`. -/
structure AlarmEntry where
  id : String
  time : String
  playlist_name : String
  playlist_uri : String
  volume : Fin 256
  active : Bool
  days : List String
  fade_in : Bool
  fade_in_duration : Fin 65536
deriving DecidableEq, Repr

/-- A point in local time, as far as the matching code observes it:
the wall-clock hour and minute and the day of week of `Local::now()`. -/
structure LocalNow where
  hour : Nat
  minute : Nat
  weekday : Weekday
deriving DecidableEq, Repr

/-- Zero-padded two-digit rendering of one numeric field, as produced
by chrono `format` specifiers `%H` and `%M`. -/
def pad2 (n : Nat) : String :=
  if n < 10 then ("0" ++ toString n) else (toString n)

/-- Embeds `now.format("%H:%M")`: the current local time as a zero-padded
"HH:MM" string. -/
def formatHHMM (h m : Nat) : String :=
  pad2 h ++ ":" ++ pad2 m

/-- Embeds `should_trigger` from `alarm.rs`, with the instant `Local::now()`
passed explicitly. -/
def should_trigger (a : AlarmEntry) (now : LocalNow) : Bool :=
  if !a.active then false
  else
    let current_time := formatHHMM now.hour now.minute
    let today := weekday_to_string now.weekday
    if a.time != current_time then false
    else if !a.days.isEmpty && !(a.days.any (fun d => d == today)) then false
    else true

/-- The scan loop of `check_alarms` in `lib.rs`: return the first entry
(in registry order) that is active, whose time equals `current_time`,
and whose `days` is empty or contains `today`. -/
def findDue (current_time today : String) : List AlarmEntry → Option AlarmEntry
  | [] => none
  | a :: rest =>
    if a.active && (a.time == current_time) && (a.days.isEmpty || a.days.any (fun d => d == today)) then
      some a
    else findDue current_time today rest

/-- Embeds `check_alarms` from `lib.rs` (the lock is modelled as always
acquired, so the surrounding `Result` layer is dropped). -/
def check_alarms (alarms : List AlarmEntry) (now : LocalNow) : Option AlarmEntry :=
  findDue (formatHHMM now.hour now.minute) (weekday_to_string now.weekday) alarms

/-- Numeric value of an ASCII digit. -/
def digitVal (c : Char) : Nat := c.toNat - 48

/-- chrono numeric-field scan for a field of maximum width 2: consumes
one or two leading ASCII digits (greedily) and returns the value and
the rest of the input. -/
def scanNum2 : List Char → Option (Nat × List Char)
  | [] => none
  | c :: rest =>
    if c.isDigit then
      match rest with
      | c2 :: rest2 =>
        if c2.isDigit then some (digitVal c * 10 + digitVal c2, rest2)
        else some (digitVal c, c2 :: rest2)
      | [] => some (digitVal c, [])
    else none

/-- Embeds `chrono::NaiveTime::parse_from_str(s, "%H:%M")`: chrono skips
leading whitespace before each numeric field, reads one or two digits
for `%H` and `%M`, requires the literal colon in between, requires the
whole input to be consumed, and range-checks hour and minute. -/
def parseHHMM (s : String) : Option (Nat × Nat) :=
  match scanNum2 (s.toList.dropWhile (fun c => c.isWhitespace)) with
  | none => none
  | some (h, rest1) =>
    match rest1 with
    | c :: rest2 =>
      if c = ':' then
        match scanNum2 (rest2.dropWhile (fun c2 => c2.isWhitespace)) with
        | none => none
        | some (m, rest3) =>
          if h ≤ 23 ∧ m ≤ 59 ∧ rest3 = [] then some (h, m) else none
      else none
    | [] => none

/-- Embeds `time_until_alarm` from `alarm.rs`.  `offsetSecs` is the UTC offset
of the local timezone in seconds (local = UTC + offset), `nowLocalSecs`
is the current local time of day in whole seconds.  The Rust code
builds the naive datetime (the local date of today plus the alarm time) and then
converts it through `Local::from_utc_datetime`, which interprets that
naive datetime as UTC; so in absolute terms the alarm instant sits at
`alarmNaive` seconds into the day while `now` sits at
`nowLocalSecs - offsetSecs`, and the computed difference is
`alarmNaive - nowLocalSecs + offsetSecs`. -/
def time_until_alarm (offsetSecs nowLocalSecs : Int) (timeStr : String) : Option Int :=
  match parseHHMM timeStr with
  | none => none
  | some (h, m) =>
    let alarmNaive : Int := (h : Int) * 3600 + (m : Int) * 60
    let diff : Int := alarmNaive - (nowLocalSecs - offsetSecs)
    if diff < 0 then some (86400 + diff) else some diff

/-- Embeds `format_time_until` from `alarm.rs`.  The three division branches
are only reached for `seconds ≥ 60`, so `/` and `%` agree with the truncating `i64` arithmetic of Rust there. -/
def format_time_until (seconds : Int) : String :=
  if seconds < 60 then
    toString seconds ++ " seconde" ++ (if seconds > 1 then ("s") else (""))
  else if seconds < 3600 then
    let minutes := seconds / 60
    toString minutes ++ " minute" ++ (if minutes > 1 then ("s") else (""))
  else
    let hours := seconds / 3600
    let minutes := (seconds % 3600) / 60
    if minutes > 0 then
      toString hours ++ "h " ++ toString minutes ++ "m"
    else
      toString hours ++ " heure" ++ (if hours > 1 then ("s") else (""))

/-- The JSON object fields serde_json writes for one `AlarmEntry`
(declaration order, `u8` and `u16` as numbers, `days` as an array of
strings). -/
def encodeAlarmFields (a : AlarmEntry) : List (String × Json) :=
  [("id", Json.str a.id), ("time", Json.str a.time),
    ("playlist_name", Json.str a.playlist_name), ("playlist_uri", Json.str a.playlist_uri),
    ("volume", Json.num (a.volume.val : Int)), ("active", Json.bool a.active),
    ("days", Json.arr (a.days.map Json.str)), ("fade_in", Json.bool a.fade_in),
    ("fade_in_duration", Json.num (a.fade_in_duration.val : Int))]

/-- serde_json serialization of one `AlarmEntry`. -/
def encodeAlarm (a : AlarmEntry) : Json :=
  Json.obj (encodeAlarmFields a)

/-- serde_json serialization of the whole collection: a JSON array. -/
def encodeAlarms (l : List AlarmEntry) : Json :=
  Json.arr (l.map encodeAlarm)

/-- Field lookup in a JSON object (first occurrence of the key). -/
def jGet : List (String × Json) → String → Option Json
  | [], _ => none
  | (k, v) :: rest, key => if k = key then some v else jGet rest key

/-- serde deserialization of a JSON value as a Rust `String`. -/
def asStr : Json → Option String
  | .str s => some s
  | _ => none

/-- serde deserialization of a JSON value as a Rust `bool`. -/
def asBool : Json → Option Bool
  | .bool b => some b
  | _ => none

/-- serde deserialization of a JSON value as a Rust `u8`
(range-checked). -/
def asU8 : Json → Option (Fin 256)
  | .num n => if h : 0 ≤ n ∧ n < 256 then some ⟨n.toNat, by omega⟩ else none
  | _ => none

/-- serde deserialization of a JSON value as a Rust `u16`
(range-checked). -/
def asU16 : Json → Option (Fin 65536)
  | .num n => if h : 0 ≤ n ∧ n < 65536 then some ⟨n.toNat, by omega⟩ else none
  | _ => none

/-- Sequential element-wise deserialization of a JSON array, failing
as soon as one element fails (the serde `Vec` visitor). -/
def decodeList {α : Type} (f : Json → Option α) : List Json → Option (List α)
  | [] => some []
  | j :: rest =>
    match f j, decodeList f rest with
    | some x, some xs => some (x :: xs)
    | _, _ => none

/-- serde deserialization of a JSON value as a `Vec<String>`. -/
def asStrList : Json → Option (List String)
  | .arr xs => decodeList asStr xs
  | _ => none

/-- serde deserialization of the fields of a JSON object as one
`AlarmEntry`: every field must be present with the right type. -/
def decodeAlarmObj (fields : List (String × Json)) : Option AlarmEntry :=
  ((jGet fields ("id")).bind asStr).bind fun i =>
  ((jGet fields ("time")).bind asStr).bind fun t =>
  ((jGet fields ("playlist_name")).bind asStr).bind fun pn =>
  ((jGet fields ("playlist_uri")).bind asStr).bind fun pu =>
  ((jGet fields ("volume")).bind asU8).bind fun v =>
  ((jGet fields ("active")).bind asBool).bind fun ac =>
  ((jGet fields ("days")).bind asStrList).bind fun d =>
  ((jGet fields ("fade_in")).bind asBool).bind fun fi =>
  ((jGet fields ("fade_in_duration")).bind asU16).bind fun fd =>
  some { id := i, time := t, playlist_name := pn, playlist_uri := pu,
         volume := v, active := ac, days := d, fade_in := fi, fade_in_duration := fd }

/-- serde deserialization of a JSON value as one `AlarmEntry`: the
value must be an object. -/
def decodeAlarm (j : Json) : Option AlarmEntry :=
  match j with
  | .obj fields => decodeAlarmObj fields
  | _ => none

/-- serde deserialization of a JSON value as `Vec<AlarmEntry>`. -/
def decodeAlarms (j : Json) : Option (List AlarmEntry) :=
  match j with
  | .arr xs => decodeList decodeAlarm xs
  | _ => none

/-- The data directory on disk: whether it exists, and the contents of
`alarms.json` and `config.json` (`none` = the file does not exist). -/
structure FileSystem where
  dirExists : Bool
  alarmsFile : Option FileContent
  configFile : Option FileContent

/-- Outcomes of the environment-dependent steps of a persisting
command: whether `app_data_dir()` resolves, whether
`fs::create_dir_all` succeeds, and whether `fs::write` succeeds. -/
structure PersistEnv where
  dirResolves : Bool
  mkdirOk : Bool
  writeOk : Bool

/-- The environment in which every external step succeeds. -/
def envAllOk : PersistEnv := { dirResolves := true, mkdirOk := true, writeOk := true }

/-- An ASCII apostrophe, used in the French error messages. -/
def apos : String := String.singleton (Char.ofNat 39)

/-- The error message of `set_alarm` for a malformed time string. -/
def invalidTimeMsg : String :=
  "Format d" ++ apos ++ "heure invalide. Utilisez HH:MM"

/-- The error message of `toggle_alarm` and `delete_alarm` for an
unknown alarm id. -/
def notFoundMsg (id : String) : String :=
  "Alarme " ++ apos ++ id ++ apos ++ " introuvable"

/-- Embeds `save_alarms` from `storage.rs`: create the data directory when
missing, serialize the collection (serde_json encoding of these types
never fails), write `alarms.json`. -/
def save_alarms (env : PersistEnv) (fs : FileSystem) (alarms : List AlarmEntry) :
    Except String Unit × FileSystem :=
  if fs.dirExists = false ∧ env.mkdirOk = false then
    (.error ("Impossible de créer le dossier"), fs)
  else if env.writeOk then
    (.ok (), { fs with dirExists := true, alarmsFile := some (.json (encodeAlarms alarms)) })
  else
    (.error ("Erreur écriture fichier"), fs)

/-- Embeds `serde_json::from_str::<Vec<AlarmEntry>>` on the contents of a
file, as used by `load_alarms`. -/
def from_str_alarms : FileContent → Except String (List AlarmEntry)
  | .garbage _ => .error ("Erreur désérialisation")
  | .json j =>
    match decodeAlarms j with
    | some l => .ok l
    | none => .error ("Erreur désérialisation")

/-- Embeds `load_alarms` from `storage.rs`: a missing file yields the empty
collection; an existing file is read (reads always succeed in this
model) and deserialized, failing on unparseable contents. -/
def load_alarms (fs : FileSystem) : Except String (List AlarmEntry) :=
  match fs.alarmsFile with
  | none => .ok []
  | some c => from_str_alarms c

/-- Embeds `AppConfig` from `storage.rs`. -/
structure AppConfig where
  spotify_client_id : Option String
  spotify_client_secret : Option String
  spotify_redirect_uri : String
  default_volume : Fin 256
  default_fade_in_duration : Fin 65536
deriving DecidableEq, Repr

/-- The `Default` impl of `AppConfig` in `storage.rs`. -/
def AppConfig.defaultConfig : AppConfig :=
  { spotify_client_id := none, spotify_client_secret := none,
    spotify_redirect_uri := "http://localhost:8888/callback",
    default_volume := 80, default_fade_in_duration := 300 }

/-- serde deserialization of a JSON value as `Option<String>` (serde
maps `null` to `None`; a missing field also becomes `None`, handled at
the call site). -/
def asOptStr : Json → Option (Option String)
  | .null => some none
  | .str s => some (some s)
  | _ => none

/-- serde deserialization of a JSON value as one `AppConfig`. -/
def decodeConfig (j : Json) : Option AppConfig :=
  match j with
  | .obj fields =>
    (match jGet fields ("spotify_client_id") with
     | none => some none
     | some v => asOptStr v).bind fun cid =>
    (match jGet fields ("spotify_client_secret") with
     | none => some none
     | some v => asOptStr v).bind fun cs =>
    ((jGet fields ("spotify_redirect_uri")).bind asStr).bind fun ru =>
    ((jGet fields ("default_volume")).bind asU8).bind fun dv =>
    ((jGet fields ("default_fade_in_duration")).bind asU16).bind fun dfd =>
    some { spotify_client_id := cid, spotify_client_secret := cs,
           spotify_redirect_uri := ru, default_volume := dv,
           default_fade_in_duration := dfd }
  | _ => none

/-- Embeds `serde_json::from_str::<AppConfig>` on the contents of a file, as
used by `load_config` (there the failure is swallowed, so only success
or failure matters). -/
def from_str_config : FileContent → Option AppConfig
  | .garbage _ => none
  | .json j => decodeConfig j

/-- Embeds `load_config` from `storage.rs`: a missing file yields the default
configuration, and — unlike `load_alarms` — a deserialization failure
is replaced by the default configuration via `unwrap_or_else`. -/
def load_config (fs : FileSystem) : Except String AppConfig :=
  match fs.configFile with
  | none => .ok AppConfig.defaultConfig
  | some c => .ok ((from_str_config c).getD AppConfig.defaultConfig)

/-- The caller-supplied arguments of `set_alarm`, plus the id produced
by `uuid::Uuid::new_v4()` modelled as an oracle input `freshId`. -/
structure SetAlarmArgs where
  freshId : String
  time : String
  playlist_name : String
  playlist_uri : String
  volume : Fin 256
  days : List String
  fade_in : Bool
  fade_in_duration : Fin 65536
deriving DecidableEq, Repr

/-- Embeds `set_alarm` from `lib.rs`: validate the time format, build the new
entry with `volume.min(100)` and `active = true`, push it onto the
in-memory list, then best-effort persist (the save result is ignored,
and the save is skipped entirely when the data directory does not
resolve).  Returns (command result, in-memory list, file system). -/
def set_alarm (env : PersistEnv) (fs : FileSystem) (alarms : List AlarmEntry)
    (args : SetAlarmArgs) : Except String AlarmEntry × List AlarmEntry × FileSystem :=
  match parseHHMM args.time with
  | none => (.error invalidTimeMsg, alarms, fs)
  | some _ =>
    let alarm : AlarmEntry :=
      { id := args.freshId, time := args.time,
        playlist_name := args.playlist_name, playlist_uri := args.playlist_uri,
        volume := min args.volume 100, active := true, days := args.days,
        fade_in := args.fade_in, fade_in_duration := args.fade_in_duration }
    let alarms2 := alarms ++ [alarm]
    let fs2 := if env.dirResolves then (save_alarms env fs alarms2).2 else fs
    (.ok alarm, alarms2, fs2)

/-- The `iter_mut().find(..)` + flip step of `toggle_alarm`: flip
`active` on the first entry with the given id, returning the new
`active` value and the updated list, or `none` when no entry matches. -/
def toggleFirst : List AlarmEntry → String → Option (Bool × List AlarmEntry)
  | [], _ => none
  | a :: rest, id =>
    if a.id = id then some (!a.active, { a with active := !a.active } :: rest)
    else
      match toggleFirst rest id with
      | some (b, rest2) => some (b, a :: rest2)
      | none => none

/-- Embeds `toggle_alarm` from `lib.rs`: flip the first entry with the given
id and best-effort persist; fail with the not-found message when no
entry matches. -/
def toggle_alarm (env : PersistEnv) (fs : FileSystem) (alarms : List AlarmEntry)
    (alarm_id : String) : Except String Bool × List AlarmEntry × FileSystem :=
  match toggleFirst alarms alarm_id with
  | some (b, alarms2) =>
    let fs2 := if env.dirResolves then (save_alarms env fs alarms2).2 else fs
    (.ok b, alarms2, fs2)
  | none => (.error (notFoundMsg alarm_id), alarms, fs)

/-- Embeds `delete_alarm` from `lib.rs`: `retain` every entry whose id
differs, and report not-found exactly when the length did not drop;
persists (best-effort) only on success. -/
def delete_alarm (env : PersistEnv) (fs : FileSystem) (alarms : List AlarmEntry)
    (alarm_id : String) : Except String Unit × List AlarmEntry × FileSystem :=
  let after := alarms.filter (fun a => a.id != alarm_id)
  if after.length < alarms.length then
    let fs2 := if env.dirResolves then (save_alarms env fs after).2 else fs
    (.ok (), after, fs2)
  else
    (.error (notFoundMsg alarm_id), after, fs)

/-- One mutating registry command, as invocable over IPC. -/
inductive RegistryOp where
  | create (args : SetAlarmArgs)
  | toggle (id : String)
  | delete (id : String)

/-- Run one registry command for its state effect. -/
def runOp (env : PersistEnv) (st : List AlarmEntry × FileSystem) :
    RegistryOp → List AlarmEntry × FileSystem
  | .create args => (set_alarm env st.2 st.1 args).2
  | .toggle id => (toggle_alarm env st.2 st.1 id).2
  | .delete id => (delete_alarm env st.2 st.1 id).2

/-- Run a sequence of registry commands from the empty registry. -/
def runOps (env : PersistEnv) (fs : FileSystem) (ops : List RegistryOp) :
    List AlarmEntry × FileSystem :=
  ops.foldl (runOp env) ([], fs)

/-- C10: `format_time_until` returns exactly "30 secondes" for 30,
"1 seconde" for 1, "1 minute" for 90 and "1h 1m" for 3661; for every
input, values below 60 render seconds with the plural suffix exactly
when the count exceeds 1, values in 60–3599 render whole minutes with
the same singular/plural rule, and values of 3600 or more render the
compact "HhMm" form when the minute remainder is nonzero and otherwise
whole hours with the singular/plural rule. -/
theorem format_time_until_spec :
    format_time_until 30 = "30 secondes" ∧ format_time_until 1 = "1 seconde" ∧
    format_time_until 90 = "1 minute" ∧ format_time_until 3661 = "1h 1m" ∧
    ∀ s : Int,
      (s < 60 → format_time_until s =
        toString s ++ " seconde" ++ (if 1 < s then ("s") else (""))) ∧
      (60 ≤ s → s < 3600 → format_time_until s =
        toString (s / 60) ++ " minute" ++ (if 1 < s / 60 then ("s") else (""))) ∧
      (3600 ≤ s → (s % 3600) / 60 ≠ 0 → format_time_until s =
        toString (s / 3600) ++ "h " ++ toString ((s % 3600) / 60) ++ "m") ∧
      (3600 ≤ s → (s % 3600) / 60 = 0 → format_time_until s =
        toString (s / 3600) ++ " heure" ++ (if 1 < s / 3600 then ("s") else (""))) := by
  refine ⟨by decide, by decide, by decide, by decide, fun s => ⟨?_, ?_, ?_, ?_⟩⟩
  · intro h
    simp only [format_time_until, if_pos h]
  · intro h1 h2
    simp only [format_time_until]
    rw [if_neg (by omega), if_pos h2]
  · intro h1 h2
    simp only [format_time_until]
    rw [if_neg (by omega), if_neg (by omega), if_pos (by omega)]
  · intro h1 h2
    simp only [format_time_until]
    rw [if_neg (by omega), if_neg (by omega), if_neg (by omega)]

/-- C10 witness: the general rules evaluated at 2, 180, 7200 and 3600. -/
theorem format_time_until_spec_witness :
    ((2:Int) < 60 ∧ format_time_until 2 = "2 secondes") ∧
    ((60:Int) ≤ 180 ∧ (180:Int) < 3600 ∧ format_time_until 180 = "3 minutes") ∧
    ((3600:Int) ≤ 7261 ∧ ((7261:Int) % 3600) / 60 ≠ 0 ∧ format_time_until 7261 = "2h 1m") ∧
    ((3600:Int) ≤ 7200 ∧ ((7200:Int) % 3600) / 60 = 0 ∧ format_time_until 7200 = "2 heures") :=
  ⟨⟨by decide, by rw [(format_time_until_spec.2.2.2.2 2).1 (by decide)]; decide⟩,
   ⟨by decide, by decide,
    by rw [(format_time_until_spec.2.2.2.2 180).2.1 (by decide) (by decide)]; decide⟩,
   ⟨by decide, by decide,
    by rw [(format_time_until_spec.2.2.2.2 7261).2.2.1 (by decide) (by decide)]; decide⟩,
   ⟨by decide, by decide,
    by rw [(format_time_until_spec.2.2.2.2 7200).2.2.2 (by decide) (by decide)]; decide⟩⟩

/-- C3: the claim that `time_until_alarm` is always non-negative and
lies in [0, 59] when the alarm time equals the current minute fails on
the code.  With a local UTC offset of -10 hours (`Local::from_utc_datetime`
reinterprets the naive local datetime as UTC), at local time 23:59:00 an
alarm at "00:00" yields -35940 seconds — negative; and even at offset 0,
at local time 10:00:30 an alarm at "10:00" (the current minute) yields
86370, far outside [0, 59]. -/
theorem time_until_alarm_bug :
    time_until_alarm (-36000) 86340 ("00:00") = some (-35940) ∧
    time_until_alarm 0 36030 ("10:00") = some 86370 := by
  constructor <;> decide

/-- The matching condition tested by one iteration of the scan loop in
`check_alarms`. -/
def dueCond (current_time today : String) (a : AlarmEntry) : Bool :=
  a.active && (a.time == current_time) && (a.days.isEmpty || a.days.any (fun d => d == today))

theorem findDue_eq_find? (ct td : String) (l : List AlarmEntry) :
    findDue ct td l = l.find? (dueCond ct td) := by
  induction l with
  | nil => rfl
  | cons a rest ih =>
    by_cases h : dueCond ct td a = true
    · have h2 : (a.active && (a.time == ct) && (a.days.isEmpty || a.days.any (fun d => d == td))) = true := h
      rw [findDue, if_pos h2, List.find?_cons_of_pos _ h]
    · have h2 : ¬ (a.active && (a.time == ct) && (a.days.isEmpty || a.days.any (fun d => d == td))) = true := h
      rw [findDue, if_neg h2, List.find?_cons_of_neg _ h, ih]

theorem find?_some_decomp {α : Type} {p : α → Bool} {l : List α} {a : α}
    (h : l.find? p = some a) :
    p a = true ∧ ∃ l₁ l₂, l = l₁ ++ a :: l₂ ∧ ∀ b ∈ l₁, p b = false := by
  induction l with
  | nil => simp [List.find?] at h
  | cons x rest ih =>
    by_cases hx : p x = true
    · rw [List.find?_cons_of_pos _ hx] at h
      obtain rfl : x = a := by injection h
      exact ⟨hx, [], rest, rfl, fun b hb => absurd hb (List.not_mem_nil b)⟩
    · rw [List.find?_cons_of_neg _ hx] at h
      obtain ⟨hpa, l₁, l₂, rfl, hall⟩ := ih h
      refine ⟨hpa, x :: l₁, l₂, rfl, fun b hb => ?_⟩
      rcases List.mem_cons.mp hb with h1 | h2
      · subst h1; exact Bool.eq_false_iff.mpr hx
      · exact hall b h2

theorem dueCond_eq_true_iff (ct td : String) (a : AlarmEntry) :
    dueCond ct td a = true ↔
      (a.active = true ∧ a.time = ct ∧ (a.days = [] ∨ td ∈ a.days)) := by
  simp [dueCond, List.isEmpty_iff, List.any_eq_true, and_assoc]

theorem should_trigger_eq_dueCond (a : AlarmEntry) (now : LocalNow) :
    should_trigger a now =
      dueCond (formatHHMM now.hour now.minute) (weekday_to_string now.weekday) a := by
  simp only [should_trigger, dueCond]
  cases ha : a.active <;> cases ht : a.time == formatHHMM now.hour now.minute <;>
    cases he : a.days.isEmpty <;>
      cases hy : a.days.any (fun d => d == weekday_to_string now.weekday) <;>
        simp [ha, ht, he, hy, bne]

/-- C1: for every registry state and every current instant,
`check_alarms` returns the first record in registry (creation) order
that is active, whose time string equals the current local time as
zero-padded "HH:MM", and whose days list is empty or contains the
current weekday label; it returns nothing exactly when no record
satisfies all three conditions (so in particular it never returns an
inactive record, even at the exact minute). -/
theorem check_alarms_spec (alarms : List AlarmEntry) (now : LocalNow) :
    (check_alarms alarms now = none ↔ ∀ a ∈ alarms, should_trigger a now = false) ∧
    (∀ a, check_alarms alarms now = some a →
      should_trigger a now = true ∧ a.active = true ∧
      a.time = formatHHMM now.hour now.minute ∧
      (a.days = [] ∨ weekday_to_string now.weekday ∈ a.days) ∧
      ∃ l₁ l₂, alarms = l₁ ++ a :: l₂ ∧ ∀ b ∈ l₁, should_trigger b now = false) := by
  constructor
  · rw [check_alarms, findDue_eq_find?, List.find?_eq_none]
    simp only [should_trigger_eq_dueCond, Bool.not_eq_true]
  · intro a h
    rw [check_alarms, findDue_eq_find?] at h
    obtain ⟨hpa, l₁, l₂, rfl, hall⟩ := find?_some_decomp h
    have hprops := (dueCond_eq_true_iff _ _ a).mp hpa
    refine ⟨by rw [should_trigger_eq_dueCond]; exact hpa, hprops.1, hprops.2.1, hprops.2.2,
      l₁, l₂, rfl, fun b hb => ?_⟩
    rw [should_trigger_eq_dueCond]
    exact hall b hb

/-- A 7:30 Monday-morning instant used by the concrete witnesses. -/
def now0 : LocalNow := { hour := 7, minute := 30, weekday := .mon }

/-- An inactive alarm whose time equals the current minute of `now0`. -/
def eInactive : AlarmEntry :=
  { id := "a0", time := "07:30", playlist_name := "P0", playlist_uri := "u0",
    volume := 30, active := false, days := [], fade_in := false, fade_in_duration := 0 }

/-- An active daily alarm at the current minute of `now0`. -/
def eActive : AlarmEntry :=
  { id := "a1", time := "07:30", playlist_name := "P1", playlist_uri := "u1",
    volume := 40, active := true, days := [], fade_in := false, fade_in_duration := 0 }

/-- C1 witness: with an inactive 07:30 alarm listed before an active
07:30 alarm, the matcher skips the inactive one and returns the active
one, with the full first-match decomposition. -/
theorem check_alarms_spec_witness :
    check_alarms [eInactive, eActive] now0 = some eActive ∧
    (should_trigger eActive now0 = true ∧ eActive.active = true ∧
     eActive.time = formatHHMM now0.hour now0.minute ∧
     (eActive.days = [] ∨ weekday_to_string now0.weekday ∈ eActive.days) ∧
     ∃ l₁ l₂, [eInactive, eActive] = l₁ ++ eActive :: l₂ ∧
       ∀ b ∈ l₁, should_trigger b now0 = false) :=
  ⟨by decide, (check_alarms_spec [eInactive, eActive] now0).2 eActive (by decide)⟩

/-- C2: `set_alarm` fails with the invalid-time-format error exactly
when the time string does not parse as "HH:MM"; on success it appends
exactly one new record whose time equals the input, whose volume is
`min volume 100` (so always at most 100, and exactly 100 whenever the
input exceeded 100, never rejected), and whose active flag is true
unconditionally, and it returns that stored record. -/
theorem set_alarm_spec (env : PersistEnv) (fs : FileSystem) (alarms : List AlarmEntry)
    (args : SetAlarmArgs) :
    (parseHHMM args.time = none →
      set_alarm env fs alarms args = (.error invalidTimeMsg, alarms, fs)) ∧
    (parseHHMM args.time ≠ none →
      ∃ a : AlarmEntry,
        (set_alarm env fs alarms args).1 = .ok a ∧
        (set_alarm env fs alarms args).2.1 = alarms ++ [a] ∧
        a.time = args.time ∧ a.volume = min args.volume 100 ∧ a.volume ≤ 100 ∧
        (100 < args.volume → a.volume = 100) ∧ a.active = true) := by
  constructor
  · intro h
    simp [set_alarm, h]
  · intro h
    cases hp : parseHHMM args.time with
    | none => exact absurd hp h
    | some v =>
      refine ⟨{ id := args.freshId, time := args.time, playlist_name := args.playlist_name,
                playlist_uri := args.playlist_uri, volume := min args.volume 100,
                active := true, days := args.days, fade_in := args.fade_in,
                fade_in_duration := args.fade_in_duration },
              ?_, ?_, rfl, rfl, min_le_right _ _,
              fun hv => min_eq_right (le_of_lt hv), rfl⟩
      · simp [set_alarm, hp]
      · simp [set_alarm, hp]

/-- An initially empty data directory. -/
def fs0 : FileSystem := { dirExists := false, alarmsFile := none, configFile := none }

/-- Arguments with a valid time and an out-of-range volume. -/
def argsGood : SetAlarmArgs :=
  { freshId := "id-good", time := "07:30", playlist_name := "Morning", playlist_uri := "uri-1",
    volume := 150, days := ["Monday"], fade_in := false, fade_in_duration := 0 }

/-- Arguments with a malformed time string. -/
def argsBad : SetAlarmArgs :=
  { freshId := "id-bad", time := "7h30", playlist_name := "Morning", playlist_uri := "uri-1",
    volume := 10, days := [], fade_in := false, fade_in_duration := 0 }

/-- C2 witness: the failure branch on "7h30" and the success branch on
"07:30" with volume 150 clamped to 100. -/
theorem set_alarm_spec_witness :
    (parseHHMM argsBad.time = none ∧
      set_alarm envAllOk fs0 [] argsBad = (.error invalidTimeMsg, [], fs0)) ∧
    (parseHHMM argsGood.time ≠ none ∧
      ∃ a : AlarmEntry,
        (set_alarm envAllOk fs0 [] argsGood).1 = .ok a ∧
        (set_alarm envAllOk fs0 [] argsGood).2.1 = [] ++ [a] ∧
        a.time = argsGood.time ∧ a.volume = min argsGood.volume 100 ∧ a.volume ≤ 100 ∧
        (100 < argsGood.volume → a.volume = 100) ∧ a.active = true) :=
  ⟨⟨by decide, (set_alarm_spec envAllOk fs0 [] argsBad).1 (by decide)⟩,
   ⟨by decide, (set_alarm_spec envAllOk fs0 [] argsGood).2 (by decide)⟩⟩

/-- C5: deleting an id absent from the registry fails with the
not-found error and leaves the in-memory collection (and the file
system) exactly as they were before the call. -/
theorem delete_alarm_absent (env : PersistEnv) (fs : FileSystem) (alarms : List AlarmEntry)
    (alarm_id : String) (h : ∀ a ∈ alarms, a.id ≠ alarm_id) :
    delete_alarm env fs alarms alarm_id = (.error (notFoundMsg alarm_id), alarms, fs) := by
  have hf : alarms.filter (fun a => a.id != alarm_id) = alarms :=
    List.filter_eq_self.mpr (fun a ha => by simpa [bne_iff_ne] using h a ha)
  simp [delete_alarm, hf]

/-- An alarm id distinct from every id in the witness registries. -/
def missingId : String := "missing"

/-- C5 witness: deleting `missingId` from a one-element registry fails
and changes nothing. -/
theorem delete_alarm_absent_witness :
    (∀ a ∈ [eActive], a.id ≠ missingId) ∧
    delete_alarm envAllOk fs0 [eActive] missingId =
      (.error (notFoundMsg missingId), [eActive], fs0) :=
  ⟨by decide, delete_alarm_absent envAllOk fs0 [eActive] missingId (by decide)⟩

theorem toggleFirst_of_append (l₁ : List AlarmEntry) (a : AlarmEntry) (l₂ : List AlarmEntry)
    (id : String) (h1 : ∀ x ∈ l₁, x.id ≠ id) (ha : a.id = id) :
    toggleFirst (l₁ ++ a :: l₂) id =
      some (!a.active, l₁ ++ ({ a with active := !a.active }) :: l₂) := by
  induction l₁ with
  | nil => simp [toggleFirst, ha]
  | cons x xs ih =>
    have hx : x.id ≠ id := h1 x (List.mem_cons_self _ _)
    have hrec := ih (fun y hy => h1 y (List.mem_cons_of_mem _ hy))
    simp [toggleFirst, hx, hrec]

theorem toggleFirst_some {alarms : List AlarmEntry} {id : String} {b : Bool}
    {alarms2 : List AlarmEntry} (h : toggleFirst alarms id = some (b, alarms2)) :
    ∃ a l₁ l₂, alarms = l₁ ++ a :: l₂ ∧ (∀ x ∈ l₁, x.id ≠ id) ∧ a.id = id ∧
      b = !a.active ∧ alarms2 = l₁ ++ ({ a with active := !a.active }) :: l₂ := by
  induction alarms generalizing b alarms2 with
  | nil => simp [toggleFirst] at h
  | cons a rest ih =>
    by_cases ha : a.id = id
    · rw [toggleFirst, if_pos ha] at h
      injection h with h2
      have hb := congrArg Prod.fst h2
      have hl := congrArg Prod.snd h2
      simp only at hb hl
      exact ⟨a, [], rest, rfl, fun x hx => absurd hx (List.not_mem_nil x), ha,
        hb.symm, hl.symm⟩
    · rw [toggleFirst, if_neg ha] at h
      cases ht : toggleFirst rest id with
      | none => rw [ht] at h; exact absurd h (by simp)
      | some p =>
        obtain ⟨b2, rest2⟩ := p
        rw [ht] at h
        injection h with h2
        have hb := congrArg Prod.fst h2
        have hl := congrArg Prod.snd h2
        simp only at hb hl
        obtain ⟨a0, l₁, l₂, rfl, hl₁, ha0, hb0, hrest2⟩ := ih ht
        refine ⟨a0, a :: l₁, l₂, rfl, fun x hx => ?_, ha0, by rw [← hb, hb0],
          by rw [← hl, hrest2]; simp⟩
        rcases List.mem_cons.mp hx with rfl | hx2
        · exact ha
        · exact hl₁ x hx2

theorem toggleFirst_exists {alarms : List AlarmEntry} {id : String}
    (h : ∃ a ∈ alarms, a.id = id) :
    ∃ b alarms2, toggleFirst alarms id = some (b, alarms2) := by
  induction alarms with
  | nil => simp at h
  | cons a rest ih =>
    by_cases ha : a.id = id
    · exact ⟨_, _, by rw [toggleFirst, if_pos ha]⟩
    · obtain ⟨x, hx, hxid⟩ := h
      rcases List.mem_cons.mp hx with rfl | hx2
      · exact absurd hxid ha
      · obtain ⟨b, alarms2, hb⟩ := ih ⟨x, hx2, hxid⟩
        exact ⟨b, a :: alarms2, by rw [toggleFirst, if_neg ha, hb]⟩

/-- C6: on a registry containing a record with the given id,
`toggle_alarm` succeeds, returns the active value of the record after the
flip, and is an involution: a second call (under any persistence
environment and file system) restores the original collection and
returns the original active value flipped back. -/
theorem toggle_alarm_involution (env env2 : PersistEnv) (fs fs2 : FileSystem)
    (alarms : List AlarmEntry) (alarm_id : String)
    (h : ∃ a ∈ alarms, a.id = alarm_id) :
    ∃ b alarms1,
      (toggle_alarm env fs alarms alarm_id).1 = .ok b ∧
      (toggle_alarm env fs alarms alarm_id).2.1 = alarms1 ∧
      (∃ a l₁ l₂, alarms = l₁ ++ a :: l₂ ∧ a.id = alarm_id ∧ b = !a.active ∧
        alarms1 = l₁ ++ ({ a with active := b }) :: l₂) ∧
      (toggle_alarm env2 fs2 alarms1 alarm_id).1 = .ok (!b) ∧
      (toggle_alarm env2 fs2 alarms1 alarm_id).2.1 = alarms := by
  obtain ⟨b, alarms1, ht⟩ := toggleFirst_exists h
  obtain ⟨a, l₁, l₂, heq, hl₁, ha, hb, h2⟩ := toggleFirst_some ht
  have hagain : toggleFirst alarms1 alarm_id = some (!b, alarms) := by
    subst heq h2 hb
    have happ := toggleFirst_of_append l₁ ({ a with active := !a.active }) l₂ alarm_id hl₁ ha
    simpa using happ
  refine ⟨b, alarms1, ?_, ?_, ⟨a, l₁, l₂, heq, ha, hb, by rw [h2, hb]⟩, ?_, ?_⟩
  · simp [toggle_alarm, ht]
  · simp [toggle_alarm, ht]
  · simp [toggle_alarm, hagain]
  · simp [toggle_alarm, hagain]

/-- C6 witness: toggling the active 07:30 alarm of a two-element
registry twice restores the original collection. -/
theorem toggle_alarm_involution_witness :
    (∃ a ∈ [eInactive, eActive], a.id = eActive.id) ∧
    ∃ b alarms1,
      (toggle_alarm envAllOk fs0 [eInactive, eActive] eActive.id).1 = .ok b ∧
      (toggle_alarm envAllOk fs0 [eInactive, eActive] eActive.id).2.1 = alarms1 ∧
      (∃ a l₁ l₂, [eInactive, eActive] = l₁ ++ a :: l₂ ∧ a.id = eActive.id ∧
        b = !a.active ∧ alarms1 = l₁ ++ ({ a with active := b }) :: l₂) ∧
      (toggle_alarm envAllOk fs0 alarms1 eActive.id).1 = .ok (!b) ∧
      (toggle_alarm envAllOk fs0 alarms1 eActive.id).2.1 = [eInactive, eActive] :=
  ⟨by decide,
   toggle_alarm_involution envAllOk envAllOk fs0 fs0 [eInactive, eActive] eActive.id (by decide)⟩

theorem decodeList_asStr (l : List String) : decodeList asStr (l.map Json.str) = some l := by
  induction l with
  | nil => rfl
  | cons x xs ih => simp [decodeList, ih, asStr]

theorem asU8_encode (v : Fin 256) : asU8 (Json.num ((v.val : Int))) = some v := by
  simp only [asU8]
  rw [dif_pos ⟨Int.natCast_nonneg _, by exact_mod_cast v.isLt⟩]
  simp [Fin.ext_iff]

theorem asU16_encode (v : Fin 65536) : asU16 (Json.num ((v.val : Int))) = some v := by
  simp only [asU16]
  rw [dif_pos ⟨Int.natCast_nonneg _, by exact_mod_cast v.isLt⟩]
  simp [Fin.ext_iff]

theorem asStr_str (s : String) : asStr (Json.str s) = some s := rfl

theorem asBool_bool (b : Bool) : asBool (Json.bool b) = some b := rfl

theorem asStrList_arr (l : List Json) : asStrList (Json.arr l) = decodeList asStr l := rfl

theorem bind_eq_some_of {α β : Type} {x : Option α} {v : α} {f : α → Option β}
    {r : Option β} (hx : x = some v) (hf : f v = r) : x.bind f = r := by
  subst hx hf; rfl

theorem jget_id (a : AlarmEntry) :
    jGet (encodeAlarmFields a) ("id") = some (Json.str a.id) := by
  simp only [encodeAlarmFields, jGet, String.reduceEq, reduceIte]

theorem jget_ti (a : AlarmEntry) :
    jGet (encodeAlarmFields a) ("time") = some (Json.str a.time) := by
  simp only [encodeAlarmFields, jGet, String.reduceEq, reduceIte]

theorem jget_pn (a : AlarmEntry) :
    jGet (encodeAlarmFields a) ("playlist_name") = some (Json.str a.playlist_name) := by
  simp only [encodeAlarmFields, jGet, String.reduceEq, reduceIte]

theorem jget_pu (a : AlarmEntry) :
    jGet (encodeAlarmFields a) ("playlist_uri") = some (Json.str a.playlist_uri) := by
  simp only [encodeAlarmFields, jGet, String.reduceEq, reduceIte]

theorem jget_vo (a : AlarmEntry) :
    jGet (encodeAlarmFields a) ("volume") = some (Json.num ((a.volume.val : Int))) := by
  simp only [encodeAlarmFields, jGet, String.reduceEq, reduceIte]

theorem jget_ac (a : AlarmEntry) :
    jGet (encodeAlarmFields a) ("active") = some (Json.bool a.active) := by
  simp only [encodeAlarmFields, jGet, String.reduceEq, reduceIte]

theorem jget_da (a : AlarmEntry) :
    jGet (encodeAlarmFields a) ("days") = some (Json.arr (a.days.map Json.str)) := by
  simp only [encodeAlarmFields, jGet, String.reduceEq, reduceIte]

theorem jget_fi (a : AlarmEntry) :
    jGet (encodeAlarmFields a) ("fade_in") = some (Json.bool a.fade_in) := by
  simp only [encodeAlarmFields, jGet, String.reduceEq, reduceIte]

theorem jget_fd (a : AlarmEntry) :
    jGet (encodeAlarmFields a) ("fade_in_duration")
      = some (Json.num ((a.fade_in_duration.val : Int))) := by
  simp only [encodeAlarmFields, jGet, String.reduceEq, reduceIte]

theorem decodeAlarm_encode_eq (a : AlarmEntry) :
    decodeAlarm (encodeAlarm a) = decodeAlarmObj (encodeAlarmFields a) := rfl

theorem decodeAlarm_encode (a : AlarmEntry) : decodeAlarm (encodeAlarm a) = some a := by
  rw [decodeAlarm_encode_eq, decodeAlarmObj]
  have hid : (jGet (encodeAlarmFields a) ("id")).bind asStr = some a.id := by
    rw [jget_id]
    rfl
  have hti : (jGet (encodeAlarmFields a) ("time")).bind asStr = some a.time := by
    rw [jget_ti]
    rfl
  have hpn : (jGet (encodeAlarmFields a) ("playlist_name")).bind asStr
      = some a.playlist_name := by
    rw [jget_pn]
    rfl
  have hpu : (jGet (encodeAlarmFields a) ("playlist_uri")).bind asStr
      = some a.playlist_uri := by
    rw [jget_pu]
    rfl
  have hvo : (jGet (encodeAlarmFields a) ("volume")).bind asU8 = some a.volume := by
    rw [jget_vo, Option.some_bind]
    exact asU8_encode a.volume
  have hac : (jGet (encodeAlarmFields a) ("active")).bind asBool = some a.active := by
    rw [jget_ac]
    rfl
  have hda : (jGet (encodeAlarmFields a) ("days")).bind asStrList = some a.days := by
    rw [jget_da, Option.some_bind, asStrList_arr]
    exact decodeList_asStr a.days
  have hfi : (jGet (encodeAlarmFields a) ("fade_in")).bind asBool = some a.fade_in := by
    rw [jget_fi]
    rfl
  have hfd : (jGet (encodeAlarmFields a) ("fade_in_duration")).bind asU16
      = some a.fade_in_duration := by
    rw [jget_fd, Option.some_bind]
    exact asU16_encode a.fade_in_duration
  refine bind_eq_some_of hid ?_
  refine bind_eq_some_of hti ?_
  refine bind_eq_some_of hpn ?_
  refine bind_eq_some_of hpu ?_
  refine bind_eq_some_of hvo ?_
  refine bind_eq_some_of hac ?_
  refine bind_eq_some_of hda ?_
  refine bind_eq_some_of hfi ?_
  refine bind_eq_some_of hfd ?_
  rfl

theorem decodeAlarms_encode (l : List AlarmEntry) : decodeAlarms (encodeAlarms l) = some l := by
  simp only [decodeAlarms, encodeAlarms]
  induction l with
  | nil => rfl
  | cons a xs ih => simp [decodeList, decodeAlarm_encode, ih]

/-- C4: saving any collection (including the empty one) and loading it
back from the same directory reproduces an equal collection — same
ids, times, days, volumes and flags in the same order — whenever the
write itself goes through. -/
theorem save_load_roundtrip (env : PersistEnv) (fs : FileSystem) (alarms : List AlarmEntry)
    (hw : env.writeOk = true) (hd : fs.dirExists = true ∨ env.mkdirOk = true) :
    (save_alarms env fs alarms).1 = .ok () ∧
    load_alarms (save_alarms env fs alarms).2 = .ok alarms := by
  have hcond : ¬ (fs.dirExists = false ∧ env.mkdirOk = false) := by
    rcases hd with h | h <;> simp [h]
  rw [save_alarms, if_neg hcond, if_pos hw]
  exact ⟨rfl, by simp [load_alarms, from_str_alarms, decodeAlarms_encode]⟩

/-- C4 witness: the round trip evaluated on the empty collection and on
a two-element collection. -/
theorem save_load_roundtrip_witness :
    (envAllOk.writeOk = true ∧ (fs0.dirExists = true ∨ envAllOk.mkdirOk = true) ∧
      (save_alarms envAllOk fs0 []).1 = .ok () ∧
      load_alarms (save_alarms envAllOk fs0 []).2 = .ok []) ∧
    ((save_alarms envAllOk fs0 [eInactive, eActive]).1 = .ok () ∧
      load_alarms (save_alarms envAllOk fs0 [eInactive, eActive]).2 = .ok [eInactive, eActive]) :=
  ⟨⟨rfl, Or.inr rfl,
    (save_load_roundtrip envAllOk fs0 [] rfl (Or.inr rfl)).1,
    (save_load_roundtrip envAllOk fs0 [] rfl (Or.inr rfl)).2⟩,
   ⟨(save_load_roundtrip envAllOk fs0 [eInactive, eActive] rfl (Or.inr rfl)).1,
    (save_load_roundtrip envAllOk fs0 [eInactive, eActive] rfl (Or.inr rfl)).2⟩⟩

/-- C7: a missing alarms file loads as the empty collection without
error; an existing but unparseable alarms file makes `load_alarms`
fail; an existing but unparseable config file makes `load_config`
silently return the default configuration — the two load paths apply
different corrupt-file policies. -/
theorem load_policy (fs : FileSystem) (s : String) (j : Json) :
    (fs.alarmsFile = none → load_alarms fs = .ok []) ∧
    (fs.alarmsFile = some (.garbage s) →
      load_alarms fs = .error ("Erreur désérialisation")) ∧
    (fs.alarmsFile = some (.json j) → decodeAlarms j = none →
      load_alarms fs = .error ("Erreur désérialisation")) ∧
    (fs.configFile = some (.garbage s) → load_config fs = .ok AppConfig.defaultConfig) ∧
    (fs.configFile = some (.json j) → decodeConfig j = none →
      load_config fs = .ok AppConfig.defaultConfig) := by
  refine ⟨fun h => ?_, fun h => ?_, fun h hd => ?_, fun h => ?_, fun h hd => ?_⟩
  · simp [load_alarms, h]
  · simp [load_alarms, h, from_str_alarms]
  · simp [load_alarms, h, from_str_alarms, hd]
  · simp [load_config, h, from_str_config]
  · simp [load_config, h, from_str_config, hd]

/-- Bytes that are not valid JSON, for the corrupt-file witnesses. -/
def garbageText : String := "not json"

/-- A data directory whose two files both hold unparseable bytes. -/
def fsCorrupt : FileSystem :=
  { dirExists := true, alarmsFile := some (.garbage garbageText),
    configFile := some (.garbage garbageText) }

/-- C7 witness: the three policies evaluated on concrete directories. -/
theorem load_policy_witness :
    (fs0.alarmsFile = none ∧ load_alarms fs0 = .ok []) ∧
    (fsCorrupt.alarmsFile = some (.garbage garbageText) ∧
      load_alarms fsCorrupt = .error ("Erreur désérialisation")) ∧
    (fsCorrupt.configFile = some (.garbage garbageText) ∧
      load_config fsCorrupt = .ok AppConfig.defaultConfig) :=
  ⟨⟨rfl, (load_policy fs0 garbageText Json.null).1 rfl⟩,
   ⟨rfl, (load_policy fsCorrupt garbageText Json.null).2.1 rfl⟩,
   ⟨rfl, (load_policy fsCorrupt garbageText Json.null).2.2.2.1 rfl⟩⟩

/-- C8: the persistence environment — whether the data directory
resolves, whether it can be created, whether the file write succeeds —
has no influence on the result returned by `set_alarm`, `toggle_alarm`
or `delete_alarm`, nor on the in-memory collection they leave behind:
both components equal those of a run in which every external step
succeeds, so a failed write is never rolled back and the command still
reports success. -/
theorem persist_failure_no_rollback (env : PersistEnv) (fs : FileSystem)
    (alarms : List AlarmEntry) (args : SetAlarmArgs) (id1 id2 : String) :
    ((set_alarm env fs alarms args).1 = (set_alarm envAllOk fs alarms args).1 ∧
     (set_alarm env fs alarms args).2.1 = (set_alarm envAllOk fs alarms args).2.1) ∧
    ((toggle_alarm env fs alarms id1).1 = (toggle_alarm envAllOk fs alarms id1).1 ∧
     (toggle_alarm env fs alarms id1).2.1 = (toggle_alarm envAllOk fs alarms id1).2.1) ∧
    ((delete_alarm env fs alarms id2).1 = (delete_alarm envAllOk fs alarms id2).1 ∧
     (delete_alarm env fs alarms id2).2.1 = (delete_alarm envAllOk fs alarms id2).2.1) := by
  refine ⟨?_, ?_, ?_⟩
  · cases hp : parseHHMM args.time <;> simp [set_alarm, hp]
  · cases ht : toggleFirst alarms id1 with
    | none => simp [toggle_alarm, ht]
    | some p =>
      obtain ⟨b, l⟩ := p
      simp [toggle_alarm, ht]
  · by_cases hlen : (alarms.filter (fun a => a.id != id2)).length < alarms.length <;>
      simp [delete_alarm, hlen]

theorem delete_alarm_state (env : PersistEnv) (fs : FileSystem) (alarms : List AlarmEntry)
    (alarm_id : String) :
    (delete_alarm env fs alarms alarm_id).2.1 = alarms.filter (fun a => a.id != alarm_id) := by
  simp only [delete_alarm]
  split <;> rfl

theorem toggleFirst_days {alarms : List AlarmEntry} {id : String} {b : Bool}
    {alarms2 : List AlarmEntry} (h : toggleFirst alarms id = some (b, alarms2)) :
    ∀ x ∈ alarms2, ∃ y ∈ alarms, x.days = y.days := by
  obtain ⟨a, l₁, l₂, rfl, hl₁, ha, hb, rfl⟩ := toggleFirst_some h
  intro x hx
  rcases List.mem_append.mp hx with h1 | h2
  · exact ⟨x, List.mem_append_left _ h1, rfl⟩
  · rcases List.mem_cons.mp h2 with rfl | h3
    · exact ⟨a, List.mem_append_right _ (List.mem_cons_self _ _), rfl⟩
    · exact ⟨x, List.mem_append_right _ (List.mem_cons_of_mem _ h3), rfl⟩

theorem runOp_days_nodup (env : PersistEnv) (st : List AlarmEntry × FileSystem)
    (op : RegistryOp) (hst : ∀ a ∈ st.1, a.days.Nodup)
    (hop : ∀ args, op = .create args → args.days.Nodup) :
    ∀ a ∈ (runOp env st op).1, a.days.Nodup := by
  cases op with
  | create args =>
    have hdays := hop args rfl
    cases hp : parseHHMM args.time with
    | none => simpa [runOp, set_alarm, hp] using hst
    | some v =>
      intro a ha
      simp only [runOp, set_alarm, hp] at ha
      rcases List.mem_append.mp ha with h1 | h2
      · exact hst a h1
      · obtain rfl := List.mem_singleton.mp h2
        exact hdays
  | toggle id =>
    cases ht : toggleFirst st.1 id with
    | none => simpa [runOp, toggle_alarm, ht] using hst
    | some p =>
      obtain ⟨b, l⟩ := p
      intro a ha
      simp only [runOp, toggle_alarm, ht] at ha
      obtain ⟨y, hy, hxy⟩ := toggleFirst_days ht a ha
      rw [hxy]
      exact hst y hy
  | delete id =>
    intro a ha
    have hstate : (runOp env st (.delete id)).1 = st.1.filter (fun x => x.id != id) := by
      show (delete_alarm env st.2 st.1 id).2.1 = st.1.filter (fun x => x.id != id)
      exact delete_alarm_state env st.2 st.1 id
    rw [hstate] at ha
    exact hst a (List.mem_of_mem_filter ha)

theorem runOps_days_nodup_aux (env : PersistEnv) (ops : List RegistryOp) :
    ∀ st : List AlarmEntry × FileSystem,
      (∀ a ∈ st.1, a.days.Nodup) →
      (∀ args, RegistryOp.create args ∈ ops → args.days.Nodup) →
      ∀ a ∈ (ops.foldl (runOp env) st).1, a.days.Nodup := by
  induction ops with
  | nil =>
    intro st hst _
    simpa using hst
  | cons op rest ih =>
    intro st hst hops
    simp only [List.foldl_cons]
    refine ih (runOp env st op)
      (runOp_days_nodup env st op hst fun args hargs => ?_)
      (fun args hargs => hops args (List.mem_cons_of_mem _ hargs))
    refine hops args ?_
    rw [← hargs]
    exact List.mem_cons_self _ _

/-- C9 (amended): `set_alarm` stores the supplied `days` list verbatim
with no deduplication, so the no-duplicate invariant holds exactly
conditionally: after any sequence of registry operations starting from
the empty registry in which every create receives a duplicate-free
days list, the days list of no record contains a duplicate label. -/
theorem days_nodup_invariant (env : PersistEnv) (fs : FileSystem) (ops : List RegistryOp)
    (h : ∀ args, RegistryOp.create args ∈ ops → args.days.Nodup) :
    ∀ a ∈ (runOps env fs ops).1, a.days.Nodup :=
  runOps_days_nodup_aux env ops ([], fs) (by simp) h

/-- Create arguments that repeat the same weekday label. -/
def dupArgs : SetAlarmArgs :=
  { freshId := "id-dup", time := "07:00", playlist_name := "Dup", playlist_uri := "uri-dup",
    volume := 50, days := ["Monday", "Monday"], fade_in := false, fade_in_duration := 0 }

/-- C9 counterexample: creating an alarm with days
["Monday", "Monday"] from the empty registry stores a record whose
days list contains a duplicate label — the unconditional claim is
false on the code. -/
theorem days_dup_counterexample :
    ∃ a ∈ (runOps envAllOk fs0 [RegistryOp.create dupArgs]).1, ¬ a.days.Nodup := by
  decide

/-- Create arguments with a duplicate-free days list. -/
def okArgs : SetAlarmArgs :=
  { freshId := "id-ok", time := "07:00", playlist_name := "Ok", playlist_uri := "uri-ok",
    volume := 50, days := ["Monday", "Friday"], fade_in := false, fade_in_duration := 0 }

/-- C9 witness: the conditional invariant applied to a one-create
sequence whose days input is duplicate-free. -/
theorem days_nodup_invariant_witness :
    (∀ args, RegistryOp.create args ∈ [RegistryOp.create okArgs] → args.days.Nodup) ∧
    ∀ a ∈ (runOps envAllOk fs0 [RegistryOp.create okArgs]).1, a.days.Nodup := by
  have h : ∀ args, RegistryOp.create args ∈ [RegistryOp.create okArgs] → args.days.Nodup := by
    intro args hmem
    rw [List.mem_singleton] at hmem
    injection hmem with h1
    subst h1
    decide
  exact ⟨h, days_nodup_invariant envAllOk fs0 [RegistryOp.create okArgs] h⟩
